import Mathlib

/-!
# Verification of the flightpandas trajectory core

A shallow embedding of the flightpandas library (`flight.py`, `base.py`,
`flight_collection.py`, `splitter.py`, `simplifier.py`) together with proofs
of the specification's claims about it.

Conventions of the embedding:
* a pandas/geopandas column set is a `List String`; a frame with data is a
  list of `(name, values)` pairs; machine data values are modelled as `Int`;
* a 2D geometry point is an `Int × Int` pair `(x, y)`;
* Python exceptions are an explicit error type `PyErr` and fallible code
  returns `Except PyErr _`;
* group keys are `Nat`, timestamps are `Int` (seconds);
* external engine primitives that the library only calls (shapely's
  `LineString.simplify`) are function parameters of the embedding.
-/

/-- Python exceptions raised by the modelled code: `ValueError` and
`KeyError` are the two kinds the library distinguishes. -/
inductive PyErr where
  | valueError (msg : String)
  | keyError (msg : String)
deriving DecidableEq

/-! ## Role resolution (`flight.py`: `_possible_column_names`, `_validate_attr`) -/

/-- `_possible_column_names['latitude']`. -/
def possible_latitude : List String := ["lat", "latitude"]

/-- `_possible_column_names['longitude']`. -/
def possible_longitude : List String := ["lon", "long", "longitude"]

/-- `_possible_column_names['altitude']`. -/
def possible_altitude : List String :=
  ["alt", "altitude", "baroaltitude", "geoaltitude", "baroalt", "geoalt"]

/-- `_possible_column_names['altitude_rate']`. -/
def possible_altitude_rate : List String :=
  ["vertrate", "alt_rate", "baroalt_rate", "geoalt_rate"]

/-- `_possible_column_names['velocity']`. -/
def possible_velocity : List String :=
  ["velocity", "groundspeed", "spd", "gs", "speed"]

/-- `_possible_column_names['heading']`. -/
def possible_heading : List String := ["heading", "track", "hdg", "trk"]

/-- `_validate_attr(data, name, override, required)` from `flight.py`.
`cols` is `data.columns`, `possible` the role's synonym list, `prior` the
`_{name}_column_name` attribute carried by `data` (None for plain frames),
`nm` the role name used in the error message.  The Python control flow is:
`attr = prior; if override is not None: attr = override; elif attr is None:`
scan the synonym list and return the first hit; finally `if attr not in
data.columns:` raise when `required` else return `None`. -/
def validate_attr (cols possible : List String) (prior override : Option String)
    (nm : String) (required : Bool) : Except PyErr (Option String) :=
  match override with
  | some o =>
    if o ∈ cols then .ok (some o)
    else if required then .error (.valueError (nm ++ " is required"))
    else .ok none
  | none =>
    match prior with
    | some p =>
      if p ∈ cols then .ok (some p)
      else if required then .error (.valueError (nm ++ " is required"))
      else .ok none
    | none =>
      match possible.find? (fun s => decide (s ∈ cols)) with
      | some s => .ok (some s)
      | none =>
        if required then .error (.valueError (nm ++ " is required"))
        else .ok none

/-! ## The `Flight` metadata surface (`base.py`, `flight.py`) -/

/-- A `Flight` as the role-binding layer sees it: its columns with their
data, plus the four optional role attributes of `FlightPandasBase._metadata`
(`_altitude_column_name`, `_altitude_rate_column_name`,
`_velocity_column_name`, `_heading_column_name`). -/
structure Flight where
  cols : List (String × List Int)
  altitude_column_name : Option String
  altitude_rate_column_name : Option String
  velocity_column_name : Option String
  heading_column_name : Option String
deriving DecidableEq

/-- `self.columns` of a `Flight`. -/
def Flight.columns (f : Flight) : List String := f.cols.map Prod.fst

/-- `self[name]` column access on a `Flight`: the first column with that
label, or a `KeyError`. -/
def Flight.getitem (f : Flight) (name : String) : Except PyErr (List Int) :=
  match f.cols.find? (fun c => c.1 == name) with
  | some c => .ok c.2
  | none => .error (.keyError name)

/-- `FlightPandasBase.get_altitude`. -/
def get_altitude (f : Flight) : Except PyErr (List Int) :=
  match f.altitude_column_name with
  | none => .error (.valueError "altitude column is not set")
  | some name => f.getitem name

/-- `FlightPandasBase.get_altitude_rate`. -/
def get_altitude_rate (f : Flight) : Except PyErr (List Int) :=
  match f.altitude_rate_column_name with
  | none => .error (.valueError "altitude rate column is not set")
  | some name => f.getitem name

/-- `FlightPandasBase.get_velocity`. -/
def get_velocity (f : Flight) : Except PyErr (List Int) :=
  match f.velocity_column_name with
  | none => .error (.valueError "velocity column is not set")
  | some name => f.getitem name

/-- `FlightPandasBase.get_heading`. -/
def get_heading (f : Flight) : Except PyErr (List Int) :=
  match f.heading_column_name with
  | none => .error (.valueError "heading column is not set")
  | some name => f.getitem name

/-- `(self.columns == attr).sum()` for a metadata attribute `attr`:
comparing an index of string labels against `None` is elementwise false. -/
def countMatches (cols : List String) : Option String → Nat
  | some a => cols.count a
  | none => 0

/-- The body of `Flight.__finalize__`'s re-validation loop for one metadata
attribute: `if (self.columns == attr).sum() != 1: attr = None`. -/
def finalizeAttr (cols : List String) (attr : Option String) : Option String :=
  if countMatches cols attr ≠ 1 then none else attr

/-- `Flight.__finalize__`: after pandas propagates the metadata from the
source object, every role attribute is re-checked against the new column
set. -/
def Flight.finalize (f : Flight) : Flight :=
  { f with
    altitude_column_name := finalizeAttr f.columns f.altitude_column_name
    altitude_rate_column_name := finalizeAttr f.columns f.altitude_rate_column_name
    velocity_column_name := finalizeAttr f.columns f.velocity_column_name
    heading_column_name := finalizeAttr f.columns f.heading_column_name }

/-! ## Flight construction from raw tabular data (`Flight.__init__`) -/

/-- A plain pandas `DataFrame`: named columns with their data. -/
structure RawFrame where
  cols : List (String × List Int)
deriving DecidableEq

/-- `data.columns` of a raw frame. -/
def RawFrame.columns (d : RawFrame) : List String := d.cols.map Prod.fst

/-- `data[name]` of a raw frame (the data of the first column with that
label, `[]` when absent; construction only reads resolved names, which
exist). -/
def RawFrame.colData (d : RawFrame) (name : String) : List Int :=
  ((d.cols.find? (fun c => c.1 == name)).map Prod.snd).getD []

/-- `geopandas.points_from_xy(x, y)`: one 2D point per row. -/
def points_from_xy (xs ys : List Int) : List (Int × Int) := xs.zip ys

/-- The `GeoDataFrame` a `Flight` wraps after construction from raw data:
the remaining plain columns, the geometry column, its CRS tag and the four
optional role bindings. -/
structure GeoFlight where
  cols : List (String × List Int)
  geometry : List (Int × Int)
  crs : String
  altitude_column_name : Option String
  altitude_rate_column_name : Option String
  velocity_column_name : Option String
  heading_column_name : Option String
deriving DecidableEq

/-- The plain (non-geometry) column labels of a constructed flight. -/
def GeoFlight.columns (g : GeoFlight) : List String := g.cols.map Prod.fst

/-- `Flight.__init__` on a plain `DataFrame` (`flight.py` lines 169-179):
latitude and longitude are resolved with `required=True`, the four optional
roles with `required=False`, then the two positional source columns are
dropped and replaced by `points_from_xy(data[lon], data[lat])` tagged
`crs="EPSG:4326"`. -/
def flight_init_dataframe (d : RawFrame)
    (lat lon alt alt_rate vel hdg : Option String) : Except PyErr GeoFlight :=
  (validate_attr d.columns possible_latitude none lat "latitude" true).bind (fun latA =>
  (validate_attr d.columns possible_longitude none lon "longitude" true).bind (fun lonA =>
  (validate_attr d.columns possible_altitude none alt "altitude" false).bind (fun altA =>
  (validate_attr d.columns possible_altitude_rate none alt_rate "altitude_rate" false).bind (fun rateA =>
  (validate_attr d.columns possible_velocity none vel "velocity" false).bind (fun velA =>
  (validate_attr d.columns possible_heading none hdg "heading" false).bind (fun hdgA =>
  Except.ok
    { cols := d.cols.filter (fun c => !((some c.1 == lonA) || (some c.1 == latA)))
      geometry := points_from_xy (d.colData (lonA.getD "")) (d.colData (latA.getD ""))
      crs := "EPSG:4326"
      altitude_column_name := altA
      altitude_rate_column_name := rateA
      velocity_column_name := velA
      heading_column_name := hdgA }))))))

/-- Specification-side reading of required-role resolution: an explicit
override resolves when it names an existing column; otherwise some synonym
of the role must be present. -/
def resolvable (cols possible : List String) (override : Option String) : Prop :=
  match override with
  | some o => o ∈ cols
  | none => ∃ s ∈ possible, s ∈ cols

/-- Specification-side resolved column name: the override when it exists in
the columns, else the first synonym present. -/
def resolveName (cols possible : List String) (override : Option String) : Option String :=
  match override with
  | some o => if o ∈ cols then some o else none
  | none => possible.find? (fun s => decide (s ∈ cols))

/-! ## Derived-frame reconstruction (`_flight_constructor_with_fallback`,
`Flight._constructor_from_mgr`) -/

/-- What a pandas internal constructor call can hand back: a `Flight` built
through `__init__`, a `Flight` rebuilt directly from a block manager that
already holds geometry (`Flight._from_mgr`, no validation), or a plain
`DataFrame`. -/
inductive PdResult where
  | flight (f : GeoFlight)
  | flightMgr (d : RawFrame)
  | frame (d : RawFrame)
deriving DecidableEq

/-- `_flight_constructor_with_fallback`: try `Flight(data)` and fall back to
`DataFrame(data)` when that raises a `ValueError`; other exceptions
propagate. -/
def flight_constructor_with_fallback (d : RawFrame) : Except PyErr PdResult :=
  match flight_init_dataframe d none none none none none none with
  | .ok f => .ok (.flight f)
  | .error (.valueError _) => .ok (.frame d)
  | .error e => .error e

/-- `Flight._constructor_from_mgr`: when no block of the manager has a
geometry dtype, go through the fallback constructor on the plain frame;
otherwise rebuild a `Flight` directly from the manager. -/
def constructor_from_mgr (d : RawFrame) (hasGeometryBlock : Bool) : Except PyErr PdResult :=
  if hasGeometryBlock then .ok (.flightMgr d) else flight_constructor_with_fallback d

/-! ## FlightCollection key normalization (`flight_collection.py` lines 168-176) -/

/-- The index/column shape of the backing frame: the names of its index
levels and of its ordinary columns. -/
structure IxFrame where
  indexNames : List String
  columns : List String
deriving DecidableEq

/-- pandas `DataFrame.reset_index(level)`: moves the index level named
`level` out of the index into a new column.  Raises `KeyError` when no index
level has that name, and `ValueError` (`cannot insert ..., already exists`)
when a column with that name already exists. -/
def reset_index (f : IxFrame) (level : String) : Except PyErr IxFrame :=
  if level ∈ f.indexNames then
    if level ∈ f.columns then
      .error (.valueError ("cannot insert " ++ level ++ ", already exists"))
    else .ok ⟨f.indexNames.erase level, level :: f.columns⟩
  else .error (.keyError ("Level " ++ level ++ " not found"))

/-- The key-normalization loop of `FlightCollection.__init__`:
`for key_name in self.key_names: if key_name in obj.columns: try: obj =
obj.reset_index(key_name) except KeyError: pass`. -/
def fc_init_key_loop : IxFrame → List String → Except PyErr IxFrame
  | f, [] => .ok f
  | f, k :: ks =>
    if k ∈ f.columns then
      match reset_index f k with
      | .ok f2 => fc_init_key_loop f2 ks
      | .error (.keyError _) => fc_init_key_loop f ks
      | .error e => .error e
    else fc_init_key_loop f ks

/-! ## TimeGapSplitter (`splitter.py`) -/

/-- The successive-difference series `index.to_series().diff().fillna(Timedelta(0))`
over a list of timestamps: the first entry is 0, entry `i+1` is
`ts[i+1] - ts[i]`. -/
def tdiffs (ts : List Int) : List Int :=
  match ts with
  | [] => []
  | _ :: rest => 0 :: (rest.zip ts).map (fun p => p.1 - p.2)

/-- `(t_diff > gap).cumsum()`: entry `i` is the number of differences among
the first `i+1` that strictly exceed the gap. -/
def cumCross (gap : Int) (ds : List Int) : List Nat :=
  (List.range ds.length).map (fun i => (ds.take (i + 1)).countP (fun d => decide (gap < d)))

/-- `flight.sort_index()`: the timestamps in ascending order. -/
def sort_index (ts : List Int) : List Int :=
  List.insertionSort (fun a b : Int => a ≤ b) ts

/-- `TimeGapSplitter._eval_flight`: sort by the time index, take successive
differences (first one 0) and number each row by the cumulative count of
differences strictly exceeding the gap; the result lists row `i`'s value of
the `split` column. -/
def timegap_eval_flight (gap : Int) (ts : List Int) : List Nat :=
  cumCross gap (tdiffs (sort_index ts))

/-- The first-row difference of the specification: 0 for the first row,
`u[j] - u[j-1]` afterwards (over the sorted timestamps `u`). -/
def specDiff (u : List Int) (j : Nat) : Int :=
  if j = 0 then 0 else u.getD j 0 - u.getD (j - 1) 0

/-- Lexicographic `(group key, time)` order used by
`data.reset_index().set_index([*group_index, time_index]).sort_index()`. -/
def rowLE (a b : Nat × Int) : Prop :=
  a.1 < b.1 ∨ (a.1 = b.1 ∧ a.2 ≤ b.2)

instance rowLE.decidable : DecidableRel rowLE := fun a b =>
  inferInstanceAs (Decidable (a.1 < b.1 ∨ (a.1 = b.1 ∧ a.2 ≤ b.2)))

/-- A collection's rows `(group key, time)` sorted by group then time. -/
def sort_by_group_time (rows : List (Nat × Int)) : List (Nat × Int) :=
  List.insertionSort rowLE rows

/-- Strict lexicographic order on the joint `(group key, cumulative gap
crossings)` keys, the order in which `groupby(...).ngroup()` numbers its
groups. -/
def keyLT (a b : Nat × Nat) : Prop :=
  a.1 < b.1 ∨ (a.1 = b.1 ∧ a.2 < b.2)

instance keyLT.decidable : DecidableRel keyLT := fun a b =>
  inferInstanceAs (Decidable (a.1 < b.1 ∨ (a.1 = b.1 ∧ a.2 < b.2)))

/-- The joint grouping key `[*group_index, (t_diff > gap).cumsum()]` of
`TimeGapSplitter._eval_flight_collection`, one per row in sorted order: the
row's original group key paired with the global cumulative crossing count. -/
def segKeys (gap : Int) (rows : List (Nat × Int)) : List (Nat × Nat) :=
  ((sort_by_group_time rows).map Prod.fst).zip
    (cumCross gap (tdiffs ((sort_by_group_time rows).map Prod.snd)))

/-- `groupby([...]).ngroup()` id of a joint key: the number of distinct
joint keys strictly below it (pandas numbers groups in sorted key order). -/
def ngroup (keys : List (Nat × Nat)) (k : Nat × Nat) : Nat :=
  (keys.toFinset.filter (fun j => keyLT j k)).card

/-- `TimeGapSplitter._eval_flight_collection`: each sorted row's dense
segment id, the `ngroup()` of its joint `(group key, cumulative crossing
count)` key. -/
def timegap_eval_fc (gap : Int) (rows : List (Nat × Int)) : List Nat :=
  (segKeys gap rows).map (ngroup (segKeys gap rows))

/-! ## Simplifier (`simplifier.py`) and linestrings (`flight.py`,
`flight_collection.py`) -/

/-- A row of a flight frame: its geometry point and its remaining data
(one attribute value). -/
abbrev FRow := (Int × Int) × Int

/-- `df.get_coordinates()`: the geometry points, one per row, in order. -/
def get_coordinates (rows : List FRow) : List (Int × Int) := rows.map Prod.fst

/-- `Flight.get_linestring`: `None` for fewer than 2 rows, else the
linestring through all coordinates in index order. -/
def get_linestring (rows : List FRow) : Option (List (Int × Int)) :=
  if rows.length < 2 then none else some (get_coordinates rows)

/-- The per-group aggregate of `FlightCollection.get_linestring`: the inner
`_get_linestring` (same 2-row sentinel rule) applied to every group. -/
def fc_get_linestring (groups : List (Nat × List FRow)) :
    List (Nat × Option (List (Int × Int))) :=
  groups.map (fun g => (g.1, get_linestring g.2))

/-- Squared Euclidean distance, the metric minimized by `KDTree.query`. -/
def sqDist (p q : Int × Int) : Int :=
  (p.1 - q.1) * (p.1 - q.1) + (p.2 - q.2) * (p.2 - q.2)

/-- `KDTree(pts).query(q)[1]`: the index of the row of `pts` nearest to `q`
(first such index; 0 for an empty set, which the caller never passes). -/
def nearestIdx (pts : List (Int × Int)) (q : Int × Int) : Nat :=
  match pts.enum.argmin (fun ip => sqDist ip.2 q) with
  | some ip => ip.1
  | none => 0

/-- `df.iloc[indices]`: positional row selection (defaulted out of range;
all callers pass in-range indices). -/
def iloc (rows : List FRow) (idxs : List Nat) : List FRow :=
  idxs.map (fun i => rows.getD i ((0, 0), 0))

/-- `_simplify_dataframe(df, simplified)`: unchanged when the simplified
linestring is `None`, else the rows nearest to the simplified vertices, in
vertex order. -/
def simplify_dataframe (rows : List FRow) : Option (List (Int × Int)) → List FRow
  | none => rows
  | some line => iloc rows (line.map (nearestIdx (get_coordinates rows)))

/-- `_simplify_linestring(df, ...)`: `df.get_linestring().simplify(...)`;
when `get_linestring` returns `None` the `AttributeError` is caught and
`None` returned.  `simplifyFn` is shapely's external `simplify`. -/
def simplify_linestring (simplifyFn : List (Int × Int) → List (Int × Int))
    (rows : List FRow) : Option (List (Int × Int)) :=
  match get_linestring rows with
  | none => none
  | some coords => some (simplifyFn coords)

/-- `RDP._eval_flight` with `output_linestring=False`: simplify the path,
then recover the nearest original rows. -/
def rdp_eval_flight (simplifyFn : List (Int × Int) → List (Int × Int))
    (rows : List FRow) : List FRow :=
  simplify_dataframe rows (simplify_linestring simplifyFn rows)

deriving instance DecidableEq for Except

/-! ## Helper lemmas: difference series and cumulative crossing counts -/

theorem tdiffs_length (ts : List Int) : (tdiffs ts).length = ts.length := by
  cases ts with
  | nil => rfl
  | cons t rest =>
    simp [tdiffs, List.length_zip]

theorem tdiffs_get_zero (ts : List Int) (h : 0 < (tdiffs ts).length) :
    (tdiffs ts).get ⟨0, h⟩ = 0 := by
  cases ts with
  | nil => simp [tdiffs] at h
  | cons t rest => rfl

theorem tdiffs_get_succ (ts : List Int) (i : Nat) (h : i + 1 < ts.length)
    (h2 : i + 1 < (tdiffs ts).length) :
    (tdiffs ts).get ⟨i + 1, h2⟩ =
      ts.get ⟨i + 1, h⟩ - ts.get ⟨i, Nat.lt_of_succ_lt h⟩ := by
  cases ts with
  | nil => simp at h
  | cons t rest =>
    have hrest : i < rest.length := by simpa using h
    have hz : i < (rest.zip (t :: rest)).length := by
      simp [List.length_zip]
      omega
    simp only [tdiffs, List.get_eq_getElem, List.getElem_cons_succ]
    rw [List.getElem_map, List.getElem_zip]

theorem cumCross_length (gap : Int) (ds : List Int) :
    (cumCross gap ds).length = ds.length := by
  simp [cumCross]

theorem cumCross_get (gap : Int) (ds : List Int) (i : Nat)
    (h2 : i < (cumCross gap ds).length) :
    (cumCross gap ds).get ⟨i, h2⟩ =
      (ds.take (i + 1)).countP (fun d => decide (gap < d)) := by
  have h : i < ds.length := by simpa [cumCross_length] using h2
  simp only [cumCross, List.get_eq_getElem]
  rw [List.getElem_map, List.getElem_range]

theorem cumCross_succ (gap : Int) (ds : List Int) (i : Nat)
    (h : i + 1 < ds.length) (h2 : i + 1 < (cumCross gap ds).length)
    (h0 : i < (cumCross gap ds).length) :
    (cumCross gap ds).get ⟨i + 1, h2⟩ =
      (cumCross gap ds).get ⟨i, h0⟩ +
        (if gap < ds.get ⟨i + 1, h⟩ then 1 else 0) := by
  rw [cumCross_get, cumCross_get]
  rw [List.take_succ (n := i + 1)]
  rw [List.getElem?_eq_getElem h]
  simp only [List.countP_append, Option.toList_some, List.countP_cons,
    List.countP_nil, List.get_eq_getElem]
  by_cases hgap : gap < ds[i + 1] <;> simp [hgap]

theorem countP_take_range (p : Int → Bool) (ds : List Int) (n : Nat)
    (h : n ≤ ds.length) :
    (ds.take n).countP p = (List.range n).countP (fun j => p (ds.getD j 0)) := by
  induction n with
  | zero => rfl
  | succ n ih =>
    have hn : n < ds.length := h
    rw [List.take_succ, List.getElem?_eq_getElem hn, List.range_succ]
    simp only [List.countP_append, Option.toList_some, List.countP_cons,
      List.countP_nil]
    rw [ih (Nat.le_of_lt hn), List.getD_eq_getElem ds 0 hn]

theorem tdiffs_getD_eq_specDiff (u : List Int) (j : Nat) (h : j < u.length) :
    (tdiffs u).getD j 0 = specDiff u j := by
  have hj : j < (tdiffs u).length := by simpa [tdiffs_length] using h
  rw [List.getD_eq_getElem _ 0 hj]
  cases j with
  | zero =>
    have := tdiffs_get_zero u (by simpa [tdiffs_length] using h)
    simpa [specDiff, List.get_eq_getElem] using this
  | succ i =>
    have := tdiffs_get_succ u i h hj
    simp only [List.get_eq_getElem] at this
    rw [this]
    simp [specDiff, List.getD, List.getElem?_eq_getElem h,
      List.getElem?_eq_getElem (Nat.lt_of_succ_lt h)]

theorem countP_congr_mem (l : List Nat) (p q : Nat → Bool)
    (h : ∀ a ∈ l, p a = q a) : l.countP p = l.countP q := by
  induction l with
  | nil => rfl
  | cons a l ih =>
    simp only [List.countP_cons]
    rw [ih (fun b hb => h b (List.mem_cons_of_mem a hb)),
      h a (List.mem_cons_self a l)]

/-! ## Helper lemmas: the dense `ngroup` numbering -/

theorem keyLT_irrefl (k : Nat × Nat) : ¬ keyLT k k := by
  simp [keyLT]

theorem keyLT_trans {a b c : Nat × Nat} (hab : keyLT a b) (hbc : keyLT b c) :
    keyLT a c := by
  rcases hab with h | ⟨h1, h2⟩ <;> rcases hbc with h' | ⟨h1', h2'⟩ <;>
    simp only [keyLT] <;> omega

theorem keyLT_connex {a b : Nat × Nat} (h : a ≠ b) : keyLT a b ∨ keyLT b a := by
  by_contra hc
  push_neg at hc
  obtain ⟨h1, h2⟩ := hc
  simp only [keyLT, not_or, not_and, not_lt] at h1 h2
  apply h
  obtain ⟨h1a, h1b⟩ := h1
  obtain ⟨h2a, h2b⟩ := h2
  have hfst : a.1 = b.1 := Nat.le_antisymm h2a h1a
  have hsnd : a.2 = b.2 := Nat.le_antisymm (h2b hfst.symm) (h1b hfst)
  exact Prod.ext hfst hsnd

theorem ngroup_lt_of_keyLT (keys : List (Nat × Nat)) {k1 k2 : Nat × Nat}
    (h1 : k1 ∈ keys) (hlt : keyLT k1 k2) : ngroup keys k1 < ngroup keys k2 := by
  apply Finset.card_lt_card
  rw [Finset.ssubset_iff_of_subset]
  · refine ⟨k1, ?_, ?_⟩
    · exact Finset.mem_filter.2 ⟨List.mem_toFinset.2 h1, hlt⟩
    · intro hmem
      exact keyLT_irrefl k1 (Finset.mem_filter.1 hmem).2
  · intro j hj
    have hj' := Finset.mem_filter.1 hj
    exact Finset.mem_filter.2 ⟨hj'.1, keyLT_trans hj'.2 hlt⟩

theorem ngroup_inj (keys : List (Nat × Nat)) {k1 k2 : Nat × Nat}
    (h1 : k1 ∈ keys) (h2 : k2 ∈ keys)
    (h : ngroup keys k1 = ngroup keys k2) : k1 = k2 := by
  by_contra hne
  rcases keyLT_connex hne with hlt | hlt
  · exact Nat.lt_irrefl _ (h ▸ ngroup_lt_of_keyLT keys h1 hlt)
  · exact Nat.lt_irrefl _ (h ▸ ngroup_lt_of_keyLT keys h2 hlt)

/-! ## Helper lemmas: the collection splitter's sorted keys -/

theorem sort_by_group_time_length (rows : List (Nat × Int)) :
    (sort_by_group_time rows).length = rows.length :=
  List.length_insertionSort rowLE rows

theorem segKeys_length (gap : Int) (rows : List (Nat × Int)) :
    (segKeys gap rows).length = (sort_by_group_time rows).length := by
  simp [segKeys, List.length_zip, cumCross_length, tdiffs_length]

theorem timegap_eval_fc_length (gap : Int) (rows : List (Nat × Int)) :
    (timegap_eval_fc gap rows).length = (sort_by_group_time rows).length := by
  simp [timegap_eval_fc, segKeys_length]

theorem segKeys_get (gap : Int) (rows : List (Nat × Int)) (i : Nat)
    (h : i < (segKeys gap rows).length)
    (hs : i < (sort_by_group_time rows).length)
    (hc : i < (cumCross gap (tdiffs ((sort_by_group_time rows).map Prod.snd))).length) :
    (segKeys gap rows).get ⟨i, h⟩ =
      (((sort_by_group_time rows).get ⟨i, hs⟩).1,
        (cumCross gap (tdiffs ((sort_by_group_time rows).map Prod.snd))).get ⟨i, hc⟩) := by
  have hm : i < ((sort_by_group_time rows).map Prod.fst).length := by
    simpa using hs
  simp only [segKeys, List.get_eq_getElem]
  rw [List.getElem_zip, List.getElem_map]

theorem timegap_eval_fc_get (gap : Int) (rows : List (Nat × Int)) (i : Nat)
    (h : i < (timegap_eval_fc gap rows).length)
    (hk : i < (segKeys gap rows).length) :
    (timegap_eval_fc gap rows).get ⟨i, h⟩ =
      ngroup (segKeys gap rows) ((segKeys gap rows).get ⟨i, hk⟩) := by
  simp only [timegap_eval_fc, List.get_eq_getElem]
  rw [List.getElem_map]

set_option maxHeartbeats 1600000 in
/-- C3: `TimeGapSplitter._eval_flight` sorts the rows by the time index,
takes successive differences with the first difference 0, starts a new
segment exactly when a difference strictly exceeds the gap, and numbers each
row by the cumulative count of such crossings; for timestamps
`[0, 5, 40, 45]` with `gap = 30` the segment ids are `[0, 0, 1, 1]`. -/
theorem timegap_flight_segmentation (gap : Int) (ts : List Int) :
    (timegap_eval_flight gap ts).length = ts.length ∧
    (sort_index ts).Perm ts ∧
    (sort_index ts).Sorted (fun a b : Int => a ≤ b) ∧
    (∀ i (h : i < (timegap_eval_flight gap ts).length),
      (timegap_eval_flight gap ts).get ⟨i, h⟩ =
        (List.range (i + 1)).countP (fun j => decide (gap < specDiff (sort_index ts) j))) ∧
    (∀ i (h1 : i + 1 < (timegap_eval_flight gap ts).length)
        (h0 : i < (timegap_eval_flight gap ts).length)
        (hu1 : i + 1 < (sort_index ts).length) (hu0 : i < (sort_index ts).length),
      ((timegap_eval_flight gap ts).get ⟨i + 1, h1⟩ ≠
          (timegap_eval_flight gap ts).get ⟨i, h0⟩ ↔
        gap < (sort_index ts).get ⟨i + 1, hu1⟩ - (sort_index ts).get ⟨i, hu0⟩) ∧
      (gap < (sort_index ts).get ⟨i + 1, hu1⟩ - (sort_index ts).get ⟨i, hu0⟩ →
        (timegap_eval_flight gap ts).get ⟨i + 1, h1⟩ =
          (timegap_eval_flight gap ts).get ⟨i, h0⟩ + 1) ∧
      (¬ gap < (sort_index ts).get ⟨i + 1, hu1⟩ - (sort_index ts).get ⟨i, hu0⟩ →
        (timegap_eval_flight gap ts).get ⟨i + 1, h1⟩ =
          (timegap_eval_flight gap ts).get ⟨i, h0⟩)) ∧
    timegap_eval_flight 30 [0, 5, 40, 45] = [0, 0, 1, 1] := by
  have hlen : (timegap_eval_flight gap ts).length = ts.length := by
    simp [timegap_eval_flight, cumCross_length, tdiffs_length, sort_index,
      List.length_insertionSort]
  have hulen : (sort_index ts).length = ts.length := by
    simp [sort_index, List.length_insertionSort]
  refine ⟨hlen, List.perm_insertionSort _ ts, List.sorted_insertionSort _ ts, ?_, ?_, by decide⟩
  · intro i h
    have hu : i < (sort_index ts).length := by omega
    have hd : i < (tdiffs (sort_index ts)).length := by
      rw [tdiffs_length]; omega
    simp only [timegap_eval_flight] at h ⊢
    rw [cumCross_get]
    rw [countP_take_range _ _ (i + 1) (by rw [tdiffs_length]; omega)]
    apply countP_congr_mem
    intro j hj
    have hjlt : j < (sort_index ts).length := by
      have := List.mem_range.1 hj
      omega
    rw [tdiffs_getD_eq_specDiff _ _ hjlt]
  · intro i h1 h0 hu1 hu0
    have hd1 : i + 1 < (tdiffs (sort_index ts)).length := by
      rw [tdiffs_length]; omega
    simp only [timegap_eval_flight] at h1 h0 ⊢
    have hstep := cumCross_succ gap (tdiffs (sort_index ts)) i
      (by rw [tdiffs_length]; omega) h1 h0
    rw [tdiffs_get_succ _ _ hu1] at hstep
    by_cases hgap : gap < (sort_index ts).get ⟨i + 1, hu1⟩ - (sort_index ts).get ⟨i, hu0⟩
    · rw [if_pos hgap] at hstep
      exact ⟨iff_of_true (by omega) hgap, fun _ => hstep, fun hc => absurd hgap hc⟩
    · rw [if_neg hgap] at hstep
      exact ⟨iff_of_false (by omega) hgap, fun hc => absurd hc hgap, fun _ => by omega⟩

/-- C2 counterexample: in a collection split with `gap = 30`, the two rows
of group 0 at times 0 and 40 are separated by a time difference of 40,
strictly greater than the gap, yet land in the same segment (all three rows
get id 0), because only consecutive differences are compared against the
gap. -/
theorem timegap_collection_nonconsecutive_counterexample :
    timegap_eval_fc 30 [(0, 0), (0, 20), (0, 40)] = [0, 0, 0] ∧
    (30 : Int) < 40 - 0 := by
  exact ⟨by decide, by decide⟩

set_option maxHeartbeats 1600000 in
/-- C2 (amended): in `TimeGapSplitter._eval_flight_collection`, two rows
with different original group keys never share an output segment id (even at
zero time difference), and two rows of the same group that are consecutive
in group-then-time order with a time difference strictly exceeding the gap
get different segment ids; groups A at times {0, 5} and B at {6, 11} with
`gap = 30` give exactly the two ids `[0, 0, 1, 1]`, one segment per original
group. -/
theorem timegap_collection_segmentation (gap : Int) (rows : List (Nat × Int)) :
    (timegap_eval_fc gap rows).length = (sort_by_group_time rows).length ∧
    (sort_by_group_time rows).Perm rows ∧
    (∀ i j (hi : i < (sort_by_group_time rows).length)
        (hj : j < (sort_by_group_time rows).length)
        (hi2 : i < (timegap_eval_fc gap rows).length)
        (hj2 : j < (timegap_eval_fc gap rows).length),
      ((sort_by_group_time rows).get ⟨i, hi⟩).1 ≠
          ((sort_by_group_time rows).get ⟨j, hj⟩).1 →
        (timegap_eval_fc gap rows).get ⟨i, hi2⟩ ≠
          (timegap_eval_fc gap rows).get ⟨j, hj2⟩) ∧
    (∀ i (h1 : i + 1 < (sort_by_group_time rows).length)
        (h0 : i < (sort_by_group_time rows).length)
        (g1 : i + 1 < (timegap_eval_fc gap rows).length)
        (g0 : i < (timegap_eval_fc gap rows).length),
      ((sort_by_group_time rows).get ⟨i, h0⟩).1 =
          ((sort_by_group_time rows).get ⟨i + 1, h1⟩).1 →
        gap < ((sort_by_group_time rows).get ⟨i + 1, h1⟩).2 -
            ((sort_by_group_time rows).get ⟨i, h0⟩).2 →
        (timegap_eval_fc gap rows).get ⟨i + 1, g1⟩ ≠
          (timegap_eval_fc gap rows).get ⟨i, g0⟩) ∧
    timegap_eval_fc 30 [(0, 0), (0, 5), (1, 6), (1, 11)] = [0, 0, 1, 1] := by
  have hkl : (segKeys gap rows).length = (sort_by_group_time rows).length :=
    segKeys_length gap rows
  have hcl : (cumCross gap (tdiffs ((sort_by_group_time rows).map Prod.snd))).length
      = (sort_by_group_time rows).length := by
    rw [cumCross_length, tdiffs_length, List.length_map]
  refine ⟨timegap_eval_fc_length gap rows, List.perm_insertionSort _ rows, ?_, ?_, by decide⟩
  · intro i j hi hj hi2 hj2 hne heq
    have hki : i < (segKeys gap rows).length := by rw [hkl]; exact hi
    have hkj : j < (segKeys gap rows).length := by rw [hkl]; exact hj
    rw [timegap_eval_fc_get gap rows i hi2 hki,
      timegap_eval_fc_get gap rows j hj2 hkj] at heq
    have hkeq := ngroup_inj (segKeys gap rows)
      (List.get_mem _ _ _) (List.get_mem _ _ _) heq
    rw [segKeys_get gap rows i hki hi (by rw [hcl]; exact hi),
      segKeys_get gap rows j hkj hj (by rw [hcl]; exact hj), Prod.mk.injEq] at hkeq
    exact hne hkeq.1
  · intro i h1 h0 g1 g0 hgrp hgap heq
    have hk1 : i + 1 < (segKeys gap rows).length := by rw [hkl]; exact h1
    have hk0 : i < (segKeys gap rows).length := by rw [hkl]; exact h0
    rw [timegap_eval_fc_get gap rows (i + 1) g1 hk1,
      timegap_eval_fc_get gap rows i g0 hk0] at heq
    have hkeq := ngroup_inj (segKeys gap rows)
      (List.get_mem _ _ _) (List.get_mem _ _ _) heq
    rw [segKeys_get gap rows (i + 1) hk1 h1 (by rw [hcl]; exact h1),
      segKeys_get gap rows i hk0 h0 (by rw [hcl]; exact h0), Prod.mk.injEq] at hkeq
    have hsnd := hkeq.2
    have hm1 : i + 1 < ((sort_by_group_time rows).map Prod.snd).length := by
      rw [List.length_map]; exact h1
    have hstep := cumCross_succ gap (tdiffs ((sort_by_group_time rows).map Prod.snd)) i
      (by rw [tdiffs_length, List.length_map]; exact h1)
      (by rw [hcl]; exact h1) (by rw [hcl]; exact h0)
    rw [tdiffs_get_succ _ _ hm1] at hstep
    have hmv1 : ((sort_by_group_time rows).map Prod.snd).get ⟨i + 1, hm1⟩ =
        ((sort_by_group_time rows).get ⟨i + 1, h1⟩).2 := by
      simp [List.get_eq_getElem, List.getElem_map]
    have hmv0 : ((sort_by_group_time rows).map Prod.snd).get
        ⟨i, Nat.lt_of_succ_lt hm1⟩ = ((sort_by_group_time rows).get ⟨i, h0⟩).2 := by
      simp [List.get_eq_getElem, List.getElem_map]
    rw [hmv1, hmv0, if_pos hgap] at hstep
    rw [hstep] at hsnd
    exact absurd hsnd (Nat.succ_ne_self _)

/-! ## Helper lemmas: column access and role bindings -/

theorem getitem_ok_of_mem (f : Flight) (c : String) (h : c ∈ f.columns) :
    ∃ d, f.getitem c = .ok d ∧ (c, d) ∈ f.cols := by
  obtain ⟨p, hp, hpc⟩ := List.mem_map.1 h
  have hsome : (f.cols.find? (fun x => x.1 == c)).isSome := by
    rw [List.find?_isSome]
    exact ⟨p, hp, by simp [hpc]⟩
  obtain ⟨q, hq⟩ := Option.isSome_iff_exists.1 hsome
  have hq1 : q.1 = c := by simpa using List.find?_some hq
  have hqmem := List.mem_of_find?_eq_some hq
  refine ⟨q.2, by simp [Flight.getitem, hq], ?_⟩
  rw [← hq1, Prod.mk.eta]
  exact hqmem

theorem getitem_not_valueError (f : Flight) (c m : String) :
    f.getitem c ≠ .error (.valueError m) := by
  unfold Flight.getitem
  cases h : f.cols.find? (fun x => x.1 == c) <;> simp

theorem get_altitude_valueError_iff (f : Flight) :
    (∃ m, get_altitude f = .error (.valueError m)) ↔ f.altitude_column_name = none := by
  cases hb : f.altitude_column_name with
  | none =>
    exact iff_of_true ⟨"altitude column is not set", by simp [get_altitude, hb]⟩ rfl
  | some c =>
    refine iff_of_false ?_ (by simp)
    rintro ⟨m, hm⟩
    simp only [get_altitude, hb] at hm
    exact getitem_not_valueError f c m hm

theorem get_altitude_rate_valueError_iff (f : Flight) :
    (∃ m, get_altitude_rate f = .error (.valueError m)) ↔
      f.altitude_rate_column_name = none := by
  cases hb : f.altitude_rate_column_name with
  | none =>
    exact iff_of_true
      ⟨"altitude rate column is not set", by simp [get_altitude_rate, hb]⟩ rfl
  | some c =>
    refine iff_of_false ?_ (by simp)
    rintro ⟨m, hm⟩
    simp only [get_altitude_rate, hb] at hm
    exact getitem_not_valueError f c m hm

theorem get_velocity_valueError_iff (f : Flight) :
    (∃ m, get_velocity f = .error (.valueError m)) ↔ f.velocity_column_name = none := by
  cases hb : f.velocity_column_name with
  | none =>
    exact iff_of_true ⟨"velocity column is not set", by simp [get_velocity, hb]⟩ rfl
  | some c =>
    refine iff_of_false ?_ (by simp)
    rintro ⟨m, hm⟩
    simp only [get_velocity, hb] at hm
    exact getitem_not_valueError f c m hm

theorem get_heading_valueError_iff (f : Flight) :
    (∃ m, get_heading f = .error (.valueError m)) ↔ f.heading_column_name = none := by
  cases hb : f.heading_column_name with
  | none =>
    exact iff_of_true ⟨"heading column is not set", by simp [get_heading, hb]⟩ rfl
  | some c =>
    refine iff_of_false ?_ (by simp)
    rintro ⟨m, hm⟩
    simp only [get_heading, hb] at hm
    exact getitem_not_valueError f c m hm

/-- C7: each of the four role accessors raises a `ValueError` exactly when
its role binding is unbound (`None`); with a binding present the accessor
returns the bound column's data (the first column with that label), never
empty `None` data. -/
theorem role_accessors_unbound_valueerror (f : Flight) :
    ((∃ m, get_altitude f = .error (.valueError m)) ↔ f.altitude_column_name = none) ∧
    ((∃ m, get_altitude_rate f = .error (.valueError m)) ↔
      f.altitude_rate_column_name = none) ∧
    ((∃ m, get_velocity f = .error (.valueError m)) ↔ f.velocity_column_name = none) ∧
    ((∃ m, get_heading f = .error (.valueError m)) ↔ f.heading_column_name = none) ∧
    (∀ c, f.altitude_column_name = some c → c ∈ f.columns →
      ∃ d, get_altitude f = .ok d ∧ (c, d) ∈ f.cols) ∧
    (∀ c, f.altitude_rate_column_name = some c → c ∈ f.columns →
      ∃ d, get_altitude_rate f = .ok d ∧ (c, d) ∈ f.cols) ∧
    (∀ c, f.velocity_column_name = some c → c ∈ f.columns →
      ∃ d, get_velocity f = .ok d ∧ (c, d) ∈ f.cols) ∧
    (∀ c, f.heading_column_name = some c → c ∈ f.columns →
      ∃ d, get_heading f = .ok d ∧ (c, d) ∈ f.cols) := by
  refine ⟨get_altitude_valueError_iff f, get_altitude_rate_valueError_iff f,
    get_velocity_valueError_iff f, get_heading_valueError_iff f, ?_, ?_, ?_, ?_⟩
  · intro c hb hc
    obtain ⟨d, hd, hmem⟩ := getitem_ok_of_mem f c hc
    exact ⟨d, by simp [get_altitude, hb, hd], hmem⟩
  · intro c hb hc
    obtain ⟨d, hd, hmem⟩ := getitem_ok_of_mem f c hc
    exact ⟨d, by simp [get_altitude_rate, hb, hd], hmem⟩
  · intro c hb hc
    obtain ⟨d, hd, hmem⟩ := getitem_ok_of_mem f c hc
    exact ⟨d, by simp [get_velocity, hb, hd], hmem⟩
  · intro c hb hc
    obtain ⟨d, hd, hmem⟩ := getitem_ok_of_mem f c hc
    exact ⟨d, by simp [get_heading, hb, hd], hmem⟩

theorem finalizeAttr_some_iff (cols : List String) (a : String) :
    finalizeAttr cols (some a) = some a ↔ cols.count a = 1 := by
  by_cases h : cols.count a = 1 <;> simp [finalizeAttr, countMatches, h]

/-- C1: `Flight.__finalize__` keeps a bound role attribute exactly when the
bound column name occurs exactly once in the result's column set, and nulls
it otherwise (an unbound attribute stays unbound); consequently, after a
projection that drops the bound column the accessor fails with the unbound
`ValueError`, and when the name is present exactly once the binding survives
and the accessor succeeds. -/
theorem flight_finalize_exactly_once (f : Flight) (a : String) :
    (finalizeAttr f.columns (some a) = some a ↔ f.columns.count a = 1) ∧
    (f.columns.count a ≠ 1 → finalizeAttr f.columns (some a) = none) ∧
    finalizeAttr f.columns none = none ∧
    f.finalize.altitude_column_name = finalizeAttr f.columns f.altitude_column_name ∧
    f.finalize.altitude_rate_column_name =
      finalizeAttr f.columns f.altitude_rate_column_name ∧
    f.finalize.velocity_column_name = finalizeAttr f.columns f.velocity_column_name ∧
    f.finalize.heading_column_name = finalizeAttr f.columns f.heading_column_name ∧
    (f.altitude_column_name = some a → a ∉ f.columns →
      ∃ m, get_altitude f.finalize = .error (.valueError m)) ∧
    (f.altitude_column_name = some a → f.columns.count a = 1 →
      f.finalize.altitude_column_name = some a ∧
        ∃ d, get_altitude f.finalize = .ok d ∧ (a, d) ∈ f.cols) := by
  refine ⟨finalizeAttr_some_iff f.columns a,
    fun h => by simp [finalizeAttr, countMatches, h],
    by simp [finalizeAttr, countMatches], rfl, rfl, rfl, rfl, ?_, ?_⟩
  · intro hb hnm
    have hcnt : f.columns.count a = 0 := List.count_eq_zero.2 hnm
    have : f.finalize.altitude_column_name = none := by
      simp [Flight.finalize, hb, finalizeAttr, countMatches, hcnt]
    exact ⟨"altitude column is not set", by simp [get_altitude, this]⟩
  · intro hb hcnt
    have hbind : f.finalize.altitude_column_name = some a := by
      simp [Flight.finalize, hb, finalizeAttr, countMatches, hcnt]
    have hmem : a ∈ f.finalize.columns := by
      have : 0 < f.columns.count a := by omega
      exact List.count_pos_iff.1 this
    obtain ⟨d, hd, hdm⟩ := getitem_ok_of_mem f.finalize a hmem
    exact ⟨hbind, d, by simp [get_altitude, hbind, hd], hdm⟩

/-! ## Helper lemmas: role resolution -/

theorem find?_eq_some_split {p : String → Bool} {l : List String} {a : String}
    (h : l.find? p = some a) :
    ∃ l1 l2, l = l1 ++ a :: l2 ∧ ∀ x ∈ l1, p x = false := by
  induction l with
  | nil => simp at h
  | cons b l ih =>
    rw [List.find?_cons] at h
    cases hb : p b with
    | true =>
      rw [hb] at h
      simp only [Option.some.injEq] at h
      exact ⟨[], l, by simp [h], by simp⟩
    | false =>
      rw [hb] at h
      obtain ⟨l1, l2, hsplit, hall⟩ := ih h
      refine ⟨b :: l1, l2, by simp [hsplit], ?_⟩
      intro x hx
      rcases List.mem_cons.1 hx with rfl | hx2
      · exact hb
      · exact hall x hx2

theorem find?_append_first {p : String → Bool} (l1 : List String) (s : String)
    (l2 : List String) (h1 : ∀ x ∈ l1, p x = false) (hs : p s = true) :
    (l1 ++ s :: l2).find? p = some s := by
  induction l1 with
  | nil => simp [List.find?_cons, hs]
  | cons b l ih =>
    have hb : p b = false := h1 b (List.mem_cons_self b l)
    simp only [List.cons_append, List.find?_cons, hb]
    exact ih (fun x hx => h1 x (List.mem_cons_of_mem b hx))

theorem validate_attr_opt_ok (cols possible : List String)
    (prior override : Option String) (nm : String) :
    ∃ v, validate_attr cols possible prior override nm false = .ok v := by
  unfold validate_attr
  cases override with
  | some o => by_cases h : o ∈ cols <;> simp [h]
  | none =>
    cases prior with
    | some p => by_cases h : p ∈ cols <;> simp [h]
    | none =>
      cases hf : possible.find? (fun s => decide (s ∈ cols)) <;> simp

theorem validate_attr_error_valueError (cols possible : List String)
    (prior override : Option String) (nm : String) (required : Bool) (e : PyErr)
    (h : validate_attr cols possible prior override nm required = .error e) :
    e = .valueError (nm ++ " is required") := by
  unfold validate_attr at h
  cases override with
  | some o =>
    by_cases ho : o ∈ cols
    · simp [ho] at h
    · cases required <;> simp [ho] at h
      exact h.symm
  | none =>
    cases prior with
    | some p =>
      by_cases hp : p ∈ cols
      · simp [hp] at h
      · cases required <;> simp [hp] at h
        exact h.symm
    | none =>
      cases hf : possible.find? (fun s => decide (s ∈ cols)) with
      | some s => simp [hf] at h
      | none =>
        cases required <;> simp [hf] at h
        exact h.symm

theorem validate_attr_req_error_iff (cols possible : List String)
    (override : Option String) (nm : String) :
    (∃ e, validate_attr cols possible none override nm true = .error e) ↔
      ¬ resolvable cols possible override := by
  unfold validate_attr resolvable
  cases override with
  | some o => by_cases ho : o ∈ cols <;> simp [ho]
  | none =>
    cases hf : possible.find? (fun s => decide (s ∈ cols)) with
    | some s =>
      have hmem := List.mem_of_find?_eq_some hf
      have hin : s ∈ cols := by simpa using List.find?_some hf
      simp only [hf]
      exact iff_of_false (by simp) (fun h => h ⟨s, hmem, hin⟩)
    | none =>
      have hnone := List.find?_eq_none.1 hf
      simp only [hf]
      refine iff_of_true ⟨_, rfl⟩ ?_
      rintro ⟨s, hs, hin⟩
      exact absurd (by simpa using hin) (by simpa using hnone s hs)

theorem validate_attr_req_ok (cols possible : List String) (override : Option String)
    (nm : String) (v : Option String)
    (h : validate_attr cols possible none override nm true = .ok v) :
    ∃ a, v = some a ∧ resolveName cols possible override = some a := by
  unfold validate_attr at h
  cases override with
  | some o =>
    by_cases ho : o ∈ cols
    · simp [ho] at h
      exact ⟨o, h.symm, by simp [resolveName, ho]⟩
    · simp [ho] at h
  | none =>
    cases hf : possible.find? (fun s => decide (s ∈ cols)) with
    | some s =>
      rw [hf] at h
      simp only [Except.ok.injEq] at h
      exact ⟨s, h.symm, by simp [resolveName, hf]⟩
    | none => simp [hf] at h

/-- C5: `_validate_attr` gives an explicit override precedence over any
prior binding; with no override it reuses a prior binding; with neither it
scans the role's synonym list in its stated order and binds the first name
present among the columns; and whenever the finally resolved name is absent
from the columns (or nothing resolved at all) it raises a `ValueError` when
`required` and returns `None` otherwise. -/
theorem validate_attr_resolution (cols possible : List String)
    (prior override : Option String) (nm : String) (required : Bool) :
    (∀ o, override = some o →
      validate_attr cols possible prior override nm required =
        validate_attr cols possible none override nm required) ∧
    (∀ o, override = some o → o ∈ cols →
      validate_attr cols possible prior override nm required = .ok (some o)) ∧
    (∀ o, override = some o → o ∉ cols →
      validate_attr cols possible prior override nm required =
        (if required then .error (.valueError (nm ++ " is required"))
         else .ok none)) ∧
    (∀ p, override = none → prior = some p →
      validate_attr cols possible prior override nm required =
        (if p ∈ cols then .ok (some p)
         else if required then .error (.valueError (nm ++ " is required"))
         else .ok none)) ∧
    (override = none → prior = none →
      ∀ s, validate_attr cols possible prior override nm required = .ok (some s) →
        s ∈ cols ∧ ∃ l1 l2, possible = l1 ++ s :: l2 ∧ ∀ x ∈ l1, x ∉ cols) ∧
    (∀ l1 s l2, override = none → prior = none → possible = l1 ++ s :: l2 →
      (∀ x ∈ l1, x ∉ cols) → s ∈ cols →
      validate_attr cols possible prior override nm required = .ok (some s)) ∧
    (override = none → prior = none → (∀ s ∈ possible, s ∉ cols) →
      validate_attr cols possible prior override nm required =
        (if required then .error (.valueError (nm ++ " is required"))
         else .ok none)) ∧
    (required = false →
      ∃ v, validate_attr cols possible prior override nm required = .ok v) := by
  refine ⟨?_, ?_, ?_, ?_, ?_, ?_, ?_, ?_⟩
  · rintro o rfl
    rfl
  · rintro o rfl ho
    simp [validate_attr, ho]
  · rintro o rfl ho
    simp [validate_attr, ho]
  · rintro p rfl rfl
    by_cases hp : p ∈ cols <;> simp [validate_attr, hp]
  · rintro rfl rfl s hok
    unfold validate_attr at hok
    cases hf : possible.find? (fun x => decide (x ∈ cols)) with
    | some t =>
      rw [hf] at hok
      simp only [Except.ok.injEq, Option.some.injEq] at hok
      subst hok
      have hin : t ∈ cols := by simpa using List.find?_some hf
      obtain ⟨l1, l2, hsplit, hall⟩ := find?_eq_some_split hf
      exact ⟨hin, l1, l2, hsplit, fun x hx => by simpa using hall x hx⟩
    | none =>
      rw [hf] at hok
      cases required <;> simp at hok
  · rintro l1 s l2 rfl rfl hsplit hall hs
    unfold validate_attr
    rw [hsplit, find?_append_first l1 s l2
      (fun x hx => by simpa using hall x hx) (by simpa using hs)]
  · rintro rfl rfl hnone
    unfold validate_attr
    rw [List.find?_eq_none.2 (fun x hx => by simpa using hnone x hx)]
  · rintro rfl
    exact validate_attr_opt_ok cols possible prior override nm

/-- C4: constructing a `Flight` from a raw frame fails exactly when the
latitude or the longitude column can neither be supplied explicitly nor
auto-detected; on success the two resolved source columns are gone from the
result's plain columns and a single geometry column of 2D points (x from
longitude, y from latitude) tagged `EPSG:4326` replaces them. -/
theorem flight_construction_latlon (d : RawFrame) (lat lon : Option String) :
    ((∃ e, flight_init_dataframe d lat lon none none none none = .error e) ↔
      (¬ resolvable d.columns possible_latitude lat ∨
        ¬ resolvable d.columns possible_longitude lon)) ∧
    (∀ g, flight_init_dataframe d lat lon none none none none = .ok g →
      ∃ la lo, resolveName d.columns possible_latitude lat = some la ∧
        resolveName d.columns possible_longitude lon = some lo ∧
        la ∉ g.columns ∧ lo ∉ g.columns ∧
        g.geometry = points_from_xy (d.colData lo) (d.colData la) ∧
        g.crs = "EPSG:4326") := by
  obtain ⟨altV, h3⟩ := validate_attr_opt_ok d.columns possible_altitude none none "altitude"
  obtain ⟨rateV, h4⟩ :=
    validate_attr_opt_ok d.columns possible_altitude_rate none none "altitude_rate"
  obtain ⟨velV, h5⟩ := validate_attr_opt_ok d.columns possible_velocity none none "velocity"
  obtain ⟨hdgV, h6⟩ := validate_attr_opt_ok d.columns possible_heading none none "heading"
  cases h1 : validate_attr d.columns possible_latitude none lat "latitude" true with
  | error e =>
    constructor
    · refine iff_of_true ⟨e, ?_⟩ ?_
      · simp [flight_init_dataframe, h1, Except.bind]
      · exact Or.inl ((validate_attr_req_error_iff d.columns possible_latitude lat
          "latitude").1 ⟨e, h1⟩)
    · intro g hg
      simp [flight_init_dataframe, h1, Except.bind] at hg
  | ok latA =>
    cases h2 : validate_attr d.columns possible_longitude none lon "longitude" true with
    | error e =>
      constructor
      · refine iff_of_true ⟨e, ?_⟩ ?_
        · simp [flight_init_dataframe, h1, h2, Except.bind]
        · exact Or.inr ((validate_attr_req_error_iff d.columns possible_longitude lon
            "longitude").1 ⟨e, h2⟩)
      · intro g hg
        simp [flight_init_dataframe, h1, h2, Except.bind] at hg
    | ok lonA =>
      obtain ⟨la, hlaEq, hlaRes⟩ := validate_attr_req_ok _ _ _ _ _ h1
      obtain ⟨lo, hloEq, hloRes⟩ := validate_attr_req_ok _ _ _ _ _ h2
      subst hlaEq hloEq
      have hval : flight_init_dataframe d lat lon none none none none =
          Except.ok
            { cols := d.cols.filter
                (fun c => !((some c.1 == some lo) || (some c.1 == some la)))
              geometry := points_from_xy (d.colData lo) (d.colData la)
              crs := "EPSG:4326"
              altitude_column_name := altV
              altitude_rate_column_name := rateV
              velocity_column_name := velV
              heading_column_name := hdgV } := by
        simp [flight_init_dataframe, h1, h2, h3, h4, h5, h6, Except.bind]
      constructor
      · refine iff_of_false (by simp [hval]) ?_
        rintro (hbad | hbad)
        · exact hbad (((validate_attr_req_error_iff d.columns possible_latitude lat
            "latitude").not_left).1 (by simp [h1]))
        · exact hbad (((validate_attr_req_error_iff d.columns possible_longitude lon
            "longitude").not_left).1 (by simp [h2]))
      · intro g hg
        rw [hval] at hg
        simp only [Except.ok.injEq] at hg
        subst hg
        refine ⟨la, lo, hlaRes, hloRes, ?_, ?_, rfl, rfl⟩
        · intro hmem
          obtain ⟨c, hc, hceq⟩ := List.mem_map.1 hmem
          have := (List.mem_filter.1 hc).2
          simp only [Bool.not_eq_eq_eq_not, Bool.not_true, Bool.or_eq_false_iff,
            beq_eq_false_iff_ne] at this
          exact this.2 (by simp [hceq])
        · intro hmem
          obtain ⟨c, hc, hceq⟩ := List.mem_map.1 hmem
          have := (List.mem_filter.1 hc).2
          simp only [Bool.not_eq_eq_eq_not, Bool.not_true, Bool.or_eq_false_iff,
            beq_eq_false_iff_ne] at this
          exact this.1 (by simp [hceq])

/-! ## Helper lemmas: constructor fallback -/

theorem flight_init_error_valueError (d : RawFrame)
    (lat lon alt alt_rate vel hdg : Option String) (e : PyErr)
    (h : flight_init_dataframe d lat lon alt alt_rate vel hdg = .error e) :
    ∃ m, e = .valueError m := by
  unfold flight_init_dataframe at h
  cases h1 : validate_attr d.columns possible_latitude none lat "latitude" true with
  | error e1 =>
    rw [h1] at h
    simp only [Except.bind] at h
    have hv := validate_attr_error_valueError _ _ _ _ _ _ _ h1
    injection h with h7
    exact ⟨_, h7 ▸ hv⟩
  | ok latA =>
    rw [h1] at h
    simp only [Except.bind] at h
    cases h2 : validate_attr d.columns possible_longitude none lon "longitude" true with
    | error e2 =>
      rw [h2] at h
      simp only [Except.bind] at h
      have hv := validate_attr_error_valueError _ _ _ _ _ _ _ h2
      injection h with h7
      exact ⟨_, h7 ▸ hv⟩
    | ok lonA =>
      rw [h2] at h
      simp only [Except.bind] at h
      obtain ⟨v3, h3⟩ := validate_attr_opt_ok d.columns possible_altitude none alt "altitude"
      obtain ⟨v4, h4⟩ :=
        validate_attr_opt_ok d.columns possible_altitude_rate none alt_rate "altitude_rate"
      obtain ⟨v5, h5⟩ := validate_attr_opt_ok d.columns possible_velocity none vel "velocity"
      obtain ⟨v6, h6⟩ := validate_attr_opt_ok d.columns possible_heading none hdg "heading"
      rw [h3, h4, h5, h6] at h
      simp [Except.bind] at h

/-- C10 counterexample: a derived frame with no geometry-typed column but
with auto-detectable `lat`/`lon` columns is not returned as a plain
`DataFrame`: the fallback successfully re-constructs a `Flight` from it
(consuming `lat`/`lon` into a geometry column), so "no geometry column"
alone does not force the plain-`DataFrame` downgrade. -/
theorem constructor_from_mgr_counterexample :
    constructor_from_mgr ⟨[("lat", [10, 20, 30]), ("lon", [100, 110, 120])]⟩ false =
      .ok (.flight
        { cols := []
          geometry := [(100, 10), (110, 20), (120, 30)]
          crs := "EPSG:4326"
          altitude_column_name := none
          altitude_rate_column_name := none
          velocity_column_name := none
          heading_column_name := none }) ∧
    constructor_from_mgr ⟨[("lat", [10, 20, 30]), ("lon", [100, 110, 120])]⟩ false ≠
      .ok (.frame ⟨[("lat", [10, 20, 30]), ("lon", [100, 110, 120])]⟩) := by
  exact ⟨by decide, by decide⟩

/-- C10 (amended): internal `Flight` re-construction never propagates an
error (every `flight_init` failure is a `ValueError`, which the fallback
catches); a manager with a geometry block is rebuilt as a `Flight` directly;
and a derived frame without a geometry-typed column is returned as a plain
`DataFrame` exactly when re-constructing it as a `Flight` fails (latitude or
longitude unresolvable) — when `lat`/`lon` resolve, a new `Flight` is
constructed instead. -/
theorem constructor_from_mgr_fallback (d : RawFrame) (hasGeom : Bool) :
    (∃ r, constructor_from_mgr d hasGeom = .ok r) ∧
    (hasGeom = true → constructor_from_mgr d hasGeom = .ok (.flightMgr d)) ∧
    (constructor_from_mgr d false = .ok (.frame d) ↔
      ∃ e, flight_init_dataframe d none none none none none none = .error e) ∧
    (∀ f2, constructor_from_mgr d false = .ok (.flight f2) ↔
      flight_init_dataframe d none none none none none none = .ok f2) ∧
    (∀ e, flight_init_dataframe d none none none none none none = .error e →
      ∃ m, e = .valueError m) := by
  have hfb : ∃ r, flight_constructor_with_fallback d = .ok r := by
    unfold flight_constructor_with_fallback
    cases hi : flight_init_dataframe d none none none none none none with
    | ok f => exact ⟨.flight f, rfl⟩
    | error e =>
      obtain ⟨m, rfl⟩ := flight_init_error_valueError d _ _ _ _ _ _ e hi
      exact ⟨.frame d, rfl⟩
  refine ⟨?_, ?_, ?_, ?_,
    fun e he => flight_init_error_valueError d _ _ _ _ _ _ e he⟩
  · cases hasGeom with
    | true => exact ⟨.flightMgr d, rfl⟩
    | false => simpa [constructor_from_mgr] using hfb
  · intro hg
    subst hg
    rfl
  · unfold constructor_from_mgr flight_constructor_with_fallback
    cases hi : flight_init_dataframe d none none none none none none with
    | ok f => simp
    | error e =>
      obtain ⟨m, rfl⟩ := flight_init_error_valueError d _ _ _ _ _ _ e hi
      simp
  · intro f2
    unfold constructor_from_mgr flight_constructor_with_fallback
    cases hi : flight_init_dataframe d none none none none none none with
    | ok f => simp
    | error e =>
      obtain ⟨m, rfl⟩ := flight_init_error_valueError d _ _ _ _ _ _ e hi
      simp

/-! ## Helper lemmas: the collection key-normalization loop -/

theorem fc_init_key_loop_ok_of_none (f : IxFrame) (ks : List String)
    (h : ∀ k ∈ ks, ¬(k ∈ f.columns ∧ k ∈ f.indexNames)) :
    fc_init_key_loop f ks = .ok f := by
  induction ks with
  | nil => rfl
  | cons k ks ih =>
    by_cases hk : k ∈ f.columns
    · have hki : k ∉ f.indexNames := fun hi => h k (List.mem_cons_self k ks) ⟨hk, hi⟩
      simp only [fc_init_key_loop, if_pos hk, reset_index, if_neg hki]
      exact ih (fun x hx => h x (List.mem_cons_of_mem k hx))
    · simp only [fc_init_key_loop, if_neg hk]
      exact ih (fun x hx => h x (List.mem_cons_of_mem k hx))

theorem fc_init_key_loop_error_of_clash (f : IxFrame) (ks : List String)
    (h : ∃ k ∈ ks, k ∈ f.columns ∧ k ∈ f.indexNames) :
    ∃ m, fc_init_key_loop f ks = .error (.valueError m) := by
  induction ks with
  | nil => simp at h
  | cons k ks ih =>
    by_cases hk : k ∈ f.columns
    · by_cases hki : k ∈ f.indexNames
      · refine ⟨"cannot insert " ++ k ++ ", already exists", ?_⟩
        simp [fc_init_key_loop, hk, reset_index, hki]
      · simp only [fc_init_key_loop, if_pos hk, reset_index, if_neg hki]
        obtain ⟨k2, hk2, hbad⟩ := h
        rcases List.mem_cons.1 hk2 with rfl | hk2'
        · exact absurd hbad.2 hki
        · exact ih ⟨k2, hk2', hbad⟩
    · simp only [fc_init_key_loop, if_neg hk]
      obtain ⟨k2, hk2, hbad⟩ := h
      rcases List.mem_cons.1 hk2 with rfl | hk2'
      · exact absurd hbad.1 hk
      · exact ih ⟨k2, hk2', hbad⟩

/-- C8 counterexample: for a backing frame whose index level is `time` and
whose columns are `id, x`, grouping by the key `id` leaves the frame
unchanged: the key column `id` stays an ordinary column and is not moved
into the row index (the loop's `reset_index` raises `KeyError`, which is
swallowed). -/
theorem fc_init_key_loop_counterexample :
    fc_init_key_loop ⟨["time"], ["id", "x"]⟩ ["id"] =
      .ok ⟨["time"], ["id", "x"]⟩ ∧
    "id" ∈ (⟨["time"], ["id", "x"]⟩ : IxFrame).columns ∧
    "id" ∉ (⟨["time"], ["id", "x"]⟩ : IxFrame).indexNames := by
  exact ⟨by decide, by decide, by decide⟩

/-- C8 (amended): the key-normalization loop of `FlightCollection.__init__`
never moves a key column into the row index.  On success the backing frame
is returned completely unchanged; the loop succeeds exactly when no key name
is simultaneously a column and an index level, and otherwise construction
fails with the `ValueError` raised by `reset_index` (which moves an index
level out to the columns, the opposite direction). -/
theorem fc_init_never_moves_key_column (f : IxFrame) (keyNames : List String) :
    (fc_init_key_loop f keyNames = .ok f ↔
      ∀ k ∈ keyNames, ¬(k ∈ f.columns ∧ k ∈ f.indexNames)) ∧
    (∀ g, fc_init_key_loop f keyNames = .ok g → g = f) ∧
    ((∃ e, fc_init_key_loop f keyNames = .error e) ↔
      ∃ k ∈ keyNames, k ∈ f.columns ∧ k ∈ f.indexNames) ∧
    (∀ e, fc_init_key_loop f keyNames = .error e → ∃ m, e = .valueError m) := by
  by_cases hc : ∃ k ∈ keyNames, k ∈ f.columns ∧ k ∈ f.indexNames
  · obtain ⟨m, hm⟩ := fc_init_key_loop_error_of_clash f keyNames hc
    refine ⟨?_, ?_, ?_, ?_⟩
    · refine iff_of_false (by simp [hm]) ?_
      intro hall
      obtain ⟨k, hk, hbad⟩ := hc
      exact hall k hk hbad
    · intro g hg
      rw [hm] at hg
      exact absurd hg (by simp)
    · exact iff_of_true ⟨_, hm⟩ hc
    · intro e he
      rw [hm] at he
      injection he with he2
      exact ⟨m, he2.symm⟩
  · push_neg at hc
    have hok := fc_init_key_loop_ok_of_none f keyNames
      (fun k hk => by
        intro hbad
        exact (hc k hk hbad.1) hbad.2)
    refine ⟨?_, ?_, ?_, ?_⟩
    · exact iff_of_true hok (fun k hk hbad => (hc k hk hbad.1) hbad.2)
    · intro g hg
      rw [hok] at hg
      injection hg with h2
      exact h2.symm
    · refine iff_of_false (by simp [hok]) ?_
      rintro ⟨k, hk, hbad⟩
      exact (hc k hk hbad.1) hbad.2
    · intro e he
      rw [hok] at he
      exact absurd he (by simp)

/-! ## Helper lemmas: nearest-neighbor recovery -/

theorem nearestIdx_spec (pts : List (Int × Int)) (q : Int × Int) (h : pts ≠ []) :
    ∃ hn : nearestIdx pts q < pts.length,
      ∀ j (hj : j < pts.length),
        sqDist (pts.get ⟨nearestIdx pts q, hn⟩) q ≤ sqDist (pts.get ⟨j, hj⟩) q := by
  unfold nearestIdx
  cases harg : pts.enum.argmin (fun ip => sqDist ip.2 q) with
  | none =>
    rw [List.argmin_eq_none] at harg
    have hlen : pts.length = 0 := by
      simpa [List.enum_length] using congrArg List.length harg
    exact absurd (List.length_eq_zero.1 hlen) h
  | some m =>
    have hargm : m ∈ pts.enum.argmin (fun ip => sqDist ip.2 q) := by
      rw [harg]
      rfl
    have hmem : m ∈ pts.enum := List.argmin_mem hargm
    rw [List.mem_enum_iff_getElem?] at hmem
    obtain ⟨hlt, hval⟩ := List.getElem?_eq_some.1 hmem
    refine ⟨hlt, ?_⟩
    intro j hj
    have hjmem : (j, pts.get ⟨j, hj⟩) ∈ pts.enum := by
      rw [List.mem_enum_iff_getElem?]
      simp [List.getElem?_eq_getElem hj]
    have hle := List.le_of_mem_argmin hjmem hargm
    simpa [List.get_eq_getElem, hval] using hle

theorem get_coordinates_length (rows : List FRow) :
    (get_coordinates rows).length = rows.length := by
  simp [get_coordinates]

/-- C6: for a flight with at least 2 rows, row-recovery simplification
(`output_linestring=False`) returns exactly one row per vertex of the
simplified path, in vertex order; each output row is an original row whose
coordinate is nearest to that vertex (so every recovered coordinate belongs
to the original coordinate set, for any tolerance, in particular 0); with
fewer than 2 rows the input is returned unchanged. -/
theorem rdp_row_recovery (simplifyFn : List (Int × Int) → List (Int × Int))
    (rows : List FRow) :
    (rows.length < 2 → rdp_eval_flight simplifyFn rows = rows) ∧
    (2 ≤ rows.length →
      (rdp_eval_flight simplifyFn rows).length =
        (simplifyFn (get_coordinates rows)).length ∧
      (∀ i (hv : i < (simplifyFn (get_coordinates rows)).length)
          (ho : i < (rdp_eval_flight simplifyFn rows).length),
        ∃ hn : nearestIdx (get_coordinates rows)
            ((simplifyFn (get_coordinates rows)).get ⟨i, hv⟩) < rows.length,
          (rdp_eval_flight simplifyFn rows).get ⟨i, ho⟩ =
            rows.get ⟨nearestIdx (get_coordinates rows)
              ((simplifyFn (get_coordinates rows)).get ⟨i, hv⟩), hn⟩ ∧
          (rdp_eval_flight simplifyFn rows).get ⟨i, ho⟩ ∈ rows ∧
          ((rdp_eval_flight simplifyFn rows).get ⟨i, ho⟩).1 ∈ get_coordinates rows ∧
          ∀ j (hj : j < (get_coordinates rows).length),
            sqDist ((rdp_eval_flight simplifyFn rows).get ⟨i, ho⟩).1
                ((simplifyFn (get_coordinates rows)).get ⟨i, hv⟩) ≤
              sqDist ((get_coordinates rows).get ⟨j, hj⟩)
                ((simplifyFn (get_coordinates rows)).get ⟨i, hv⟩))) := by
  constructor
  · intro hshort
    simp [rdp_eval_flight, simplify_linestring, get_linestring, hshort,
      simplify_dataframe]
  · intro h2
    have hls : get_linestring rows = some (get_coordinates rows) := by
      simp [get_linestring, Nat.not_lt.2 h2]
    have heval : rdp_eval_flight simplifyFn rows =
        iloc rows ((simplifyFn (get_coordinates rows)).map
          (nearestIdx (get_coordinates rows))) := by
      simp [rdp_eval_flight, simplify_linestring, hls, simplify_dataframe]
    have hnnil : get_coordinates rows ≠ [] := by
      intro hnil
      rw [← get_coordinates_length rows, hnil] at h2
      simp at h2
    constructor
    · simp [heval, iloc]
    · intro i hv ho
      obtain ⟨hn0, hmin⟩ := nearestIdx_spec (get_coordinates rows)
        ((simplifyFn (get_coordinates rows)).get ⟨i, hv⟩) hnnil
      have hn : nearestIdx (get_coordinates rows)
          ((simplifyFn (get_coordinates rows)).get ⟨i, hv⟩) < rows.length := by
        rw [← get_coordinates_length rows]
        exact hn0
      have hmap : i < ((simplifyFn (get_coordinates rows)).map
          (nearestIdx (get_coordinates rows))).length := by
        simpa using hv
      have hgete : (rdp_eval_flight simplifyFn rows).get ⟨i, ho⟩ =
          rows.get ⟨nearestIdx (get_coordinates rows)
            ((simplifyFn (get_coordinates rows)).get ⟨i, hv⟩), hn⟩ := by
        have hcast := List.get_of_eq heval ⟨i, ho⟩
        rw [hcast]
        simp only [iloc, List.get_eq_getElem, Fin.cast_mk, List.getElem_map]
        exact List.getD_eq_getElem rows _ hn
      have hcoordEq : ((rdp_eval_flight simplifyFn rows).get ⟨i, ho⟩).1 =
          (get_coordinates rows).get ⟨nearestIdx (get_coordinates rows)
            ((simplifyFn (get_coordinates rows)).get ⟨i, hv⟩), hn0⟩ := by
        rw [hgete]
        simp [get_coordinates, List.get_eq_getElem, List.getElem_map]
      refine ⟨hn, hgete, ?_, ?_, ?_⟩
      · rw [hgete]
        exact List.get_mem rows _ hn
      · rw [hcoordEq]
        exact List.get_mem (get_coordinates rows) _ hn0
      · intro j hj
        rw [hcoordEq]
        exact hmin j hj

/-- C9: `get_linestring` returns the no-geometry sentinel `None` exactly
when the flight has fewer than 2 rows, and otherwise the path through all
rows' coordinates in index order; the per-group collection aggregate applies
the same rule group by group, giving the sentinel for every group with fewer
than 2 rows. -/
theorem get_linestring_sentinel (rows : List FRow)
    (groups : List (Nat × List FRow)) :
    (get_linestring rows = none ↔ rows.length < 2) ∧
    (2 ≤ rows.length → get_linestring rows = some (get_coordinates rows)) ∧
    (fc_get_linestring groups).length = groups.length ∧
    (∀ i (h : i < groups.length) (h2 : i < (fc_get_linestring groups).length),
      (fc_get_linestring groups).get ⟨i, h2⟩ =
        ((groups.get ⟨i, h⟩).1, get_linestring (groups.get ⟨i, h⟩).2) ∧
      ((groups.get ⟨i, h⟩).2.length < 2 →
        ((fc_get_linestring groups).get ⟨i, h2⟩).2 = none)) := by
  refine ⟨?_, ?_, by simp [fc_get_linestring], ?_⟩
  · by_cases hlen : rows.length < 2 <;> simp [get_linestring, hlen]
  · intro h2
    simp [get_linestring, Nat.not_lt.2 h2]
  · intro i h h2
    have hget : (fc_get_linestring groups).get ⟨i, h2⟩ =
        ((groups.get ⟨i, h⟩).1, get_linestring (groups.get ⟨i, h⟩).2) := by
      simp [fc_get_linestring, List.get_eq_getElem, List.getElem_map]
    refine ⟨hget, ?_⟩
    intro hshort
    rw [hget]
    simp only [List.get_eq_getElem] at hshort
    simp [get_linestring, hshort]
